import Mathlib

/-!
Verification development for the Enterprise Cleaning Engine repository.

The Python source (cleaning_engine/{rules,operations,engine,storage,validation}.py) is shallowly
embedded below: Polars dataframes become lists of named typed columns whose cells are optional
values (`none` is the engine's null), engine floating-point numbers are modelled as rationals,
fallible calls return `Except CleanError`, and the Pydantic construction-time validators become
explicit functions.  Definitions keep the source's names where Lean allows it.
-/

set_option maxHeartbeats 1000000

namespace CleaningEngine

/-- Engine-native column data types (the Polars dtypes the source mentions). -/
inductive PDtype
  | int8
  | int16
  | int32
  | int64
  | float32
  | float64
  | utf8
  | boolean
  | date
  | datetime
  deriving DecidableEq

/-- A concrete (non-null) cell value.  Engine floating-point numbers are modelled as exact
rationals; dates are day counts and datetimes microsecond counts, as in the engine. -/
inductive CellVal
  | intV (i : Int)
  | floatV (q : ℚ)
  | strV (s : String)
  | boolV (b : Bool)
  | dateV (d : Int)
  | datetimeV (t : Int)
  deriving DecidableEq

/-- A dataframe cell: `none` models the engine's null. -/
abbrev Cell := Option CellVal

/-- One named, typed column of a dataframe. -/
structure NamedCol where
  name : String
  dtype : PDtype
  values : List Cell
  deriving DecidableEq

/-- Shallow model of a Polars dataframe: an ordered list of named typed columns. -/
structure DataFrame where
  cols : List NamedCol
  deriving DecidableEq

def DataFrame.columns (df : DataFrame) : List String := df.cols.map (·.name)

def DataFrame.height (df : DataFrame) : Nat := ((df.cols.head?).map (·.values.length)).getD 0

def getColumn (df : DataFrame) (name : String) : Option NamedCol :=
  df.cols.find? (fun c => c.name == name)

def dtypeOf (df : DataFrame) (name : String) : Option PDtype := (getColumn df name).map (·.dtype)

def colVals (df : DataFrame) (name : String) : Option (List Cell) :=
  (getColumn df name).map (·.values)

/-- Replace the column named `name` (when present) by applying `f` to it, keeping column order. -/
def mapCol (df : DataFrame) (name : String) (f : NamedCol → NamedCol) : DataFrame :=
  ⟨df.cols.map (fun c => if c.name == name then f c else c)⟩

/-- Keep the entries of `xs` whose position in `mask` holds `true` (row filtering). -/
def maskFilter (mask : List Bool) (xs : List α) : List α :=
  (mask.zip xs).filterMap (fun p => if p.1 then some p.2 else none)

/-- Apply one row mask uniformly to every column of the dataframe. -/
def filterRowsBy (df : DataFrame) (mask : List Bool) : DataFrame :=
  ⟨df.cols.map (fun c => { c with values := maskFilter mask c.values })⟩

/-- The rows of the dataframe, read off column-major storage. -/
def dfRows (df : DataFrame) : List (List Cell) :=
  (List.range df.height).map (fun i => df.cols.map (fun c => c.values.getD i none))

/-- Mask that keeps the first occurrence of every key not in `seen` and drops later duplicates. -/
def keepFirstMask [DecidableEq κ] : List κ → List κ → List Bool
  | _, [] => []
  | seen, k :: ks =>
    if k ∈ seen then false :: keepFirstMask seen ks
    else true :: keepFirstMask (k :: seen) ks

def isNumeric : PDtype → Bool
  | .int8 => true
  | .int16 => true
  | .int32 => true
  | .int64 => true
  | .float32 => true
  | .float64 => true
  | _ => false

/-- The numeric dtype whitelist that remove_outliers and standardize test against. -/
def numericDtypes : List PDtype := [.int8, .int16, .int32, .int64, .float32, .float64]

/-- Numeric view of a cell value, for the engine's aggregates. -/
def cellToQ : CellVal → Option ℚ
  | .intV i => some (i : ℚ)
  | .floatV q => some q
  | .boolV b => some (if b then 1 else 0)
  | .dateV d => some (d : ℚ)
  | .datetimeV t => some (t : ℚ)
  | .strV _ => none

def nonNullQ (cells : List Cell) : List ℚ := cells.filterMap (fun c => c.bind cellToQ)

def sortQ (xs : List ℚ) : List ℚ := List.insertionSort (· ≤ ·) xs

def meanQ (xs : List ℚ) : Option ℚ :=
  if xs.length = 0 then none else some (xs.sum / (xs.length : ℚ))

def medianQ (xs : List ℚ) : Option ℚ :=
  let s := sortQ xs
  let n := s.length
  if n = 0 then none
  else if n % 2 = 1 then some (s.getD (n / 2) 0)
  else some ((s.getD (n / 2 - 1) 0 + s.getD (n / 2) 0) / 2)

/-- Sample variance (ddof = 1), matching the engine's std; `none` with fewer than two values. -/
def varQ (xs : List ℚ) : Option ℚ :=
  match meanQ xs with
  | none => none
  | some m =>
    if xs.length ≤ 1 then none
    else some ((xs.map (fun x => (x - m) * (x - m))).sum / ((xs.length : ℚ) - 1))

/-- Executable rational approximation of a square root.  The engine computes a float here; no
verified claim depends on the exact value, only on whether it is defined and positive-ish. -/
def sqrtQ (q : ℚ) : ℚ :=
  if q ≤ 0 then 0 else (Nat.sqrt (q.num.toNat * q.den) : ℚ) / (q.den : ℚ)

def stdQ (xs : List ℚ) : Option ℚ := (varQ xs).map sqrtQ

/-- Quantile with nearest-index interpolation (approximating the engine's default). -/
def quantileQ (xs : List ℚ) (p : ℚ) : Option ℚ :=
  let s := sortQ xs
  if s.length = 0 then none
  else some (s.getD (round (p * ((s.length : ℚ) - 1))).toNat 0)

/-- A value from a rule's free-form parameter map: a scalar or a list of scalars. -/
inductive ParamVal
  | cell (c : CellVal)
  | list (l : List CellVal)
  deriving DecidableEq

/-- The operation parameter keys the source reads from the free-form `parameters` dict. -/
structure Params where
  value : Option ParamVal := none
  strategy : Option String := none
  maintain_order : Option Bool := none
  pattern : Option String := none
  replacement : Option ParamVal := none
  dtype : Option String := none
  strict : Option Bool := none
  operator : Option String := none
  method : Option String := none
  threshold : Option ℚ := none
  deriving DecidableEq

/-- The closed operation enumeration of rules.py (`CleaningOperation`). -/
inductive CleaningOperation
  | drop_nulls
  | fill_nulls
  | drop_duplicates
  | trim_whitespace
  | lowercase
  | uppercase
  | replace
  | cast_type
  | filter
  | remove_outliers
  | standardize
  | validate
  deriving DecidableEq

/-- The runtime failures a cleaning run can surface. -/
inductive CleanError
  | unknownOperation (op : CleaningOperation)
  | columnNotFound (col : String)
  | invalidDtype (name : String)
  | castFailed (col : String)
  | engineError (msg : String)
  | contractViolation (phase : String) (msg : String)
  | notConnected
  | tableExists (table : String)
  deriving DecidableEq

def isErr : Except ε α → Bool
  | .error _ => true
  | .ok _ => false

/-- ColumnSelector (rules.py): at most one of the three modes should be active. -/
structure ColumnSelector where
  columns : Option (List String) := none
  pattern : Option String := none
  all : Bool := false
  deriving DecidableEq

/-- Python truthiness of the optional name list: `None` and `[]` are falsy. -/
def optListTruthy : Option (List String) → Bool
  | none => false
  | some l => !l.isEmpty

/-- Python truthiness of the optional pattern string: `None` and `""` are falsy. -/
def optStrTruthy : Option String → Bool
  | none => false
  | some s => !s.isEmpty

/-- The Pydantic model validator of ColumnSelector (rules.py), with Python truthiness tests. -/
def validate_selector (s : ColumnSelector) : Except String ColumnSelector :=
  if optStrTruthy s.pattern && optListTruthy s.columns then
    .error "Cannot specify both selector name list and selector pattern"
  else if optStrTruthy s.pattern && s.all then
    .error "Cannot specify both selector pattern and all"
  else if optListTruthy s.columns && s.all then
    .error "Cannot specify both selector name list and all"
  else .ok s

/-- CleaningRule (rules.py).  The default selector is all-columns, as in the source. -/
structure CleaningRule where
  name : String
  operation : CleaningOperation
  columns : ColumnSelector := { all := true }
  parameters : Params := {}
  enabled : Bool := true
  order : Int := 0
  deriving DecidableEq

/-- One column constraint of a data contract (validation.py reads dtype/nullable/min/max). -/
structure ColSpec where
  dtype : Option PDtype := none
  nullable : Bool := true
  minVal : Option ℚ := none
  maxVal : Option ℚ := none
  deriving DecidableEq

/-- DataContract (rules.py). -/
structure DataContract where
  columns : List (String × ColSpec) := []
  strict : Bool := true
  coerce : Bool := false
  deriving DecidableEq

/-- RuleConfig (rules.py).  The observability map never affects results and is not modelled. -/
structure RuleConfig where
  version : String := "1.0"
  name : String
  description : Option String := none
  input_contract : Option DataContract := none
  output_contract : Option DataContract := none
  rules : List CleaningRule
  deriving DecidableEq

def ruleLe (a b : CleaningRule) : Prop := a.order ≤ b.order

instance : DecidableRel ruleLe := fun a b => inferInstanceAs (Decidable (a.order ≤ b.order))

instance : IsTotal CleaningRule ruleLe := ⟨fun a b => Int.le_total a.order b.order⟩

instance : IsTrans CleaningRule ruleLe := ⟨fun _ _ _ h₁ h₂ => le_trans h₁ h₂⟩

/-- The Pydantic field validator on RuleConfig.rules: a stable sort by `order` (insertion sort
is stable, like the stable sort the source relies on). -/
def sort_rules_by_order (v : List CleaningRule) : List CleaningRule := List.insertionSort ruleLe v

/-- Constructing a RuleConfig normalises the rule list with the stable sort, as Pydantic does. -/
def mkRuleConfig (name : String) (ic oc : Option DataContract) (rules : List CleaningRule) :
    RuleConfig :=
  { name := name, input_contract := ic, output_contract := oc,
    rules := sort_rules_by_order rules }

/-- The regex for one digit, as Python's backslash-d class (ASCII digits). -/
def digitRE : RegularExpression Char :=
  (("0123456789").data.map RegularExpression.char).foldr RegularExpression.plus
    RegularExpression.zero

/-- Translate one escaped character.  Backslash-d is the digit class; punctuation escapes are
literals; other letter classes are outside the modelled subset. -/
def escRE (c : Char) : Option (RegularExpression Char) :=
  if c = 'd' then some digitRE
  else if c.isAlphanum then none
  else some (RegularExpression.char c)

/-- Apply a trailing star, plus or question-mark quantifier if present. -/
def parseRepeat (r : RegularExpression Char) (s : List Char) :
    RegularExpression Char × List Char :=
  match s with
  | '*' :: t => (r.star, t)
  | '+' :: t => (RegularExpression.comp r r.star, t)
  | '?' :: t => (RegularExpression.plus r RegularExpression.epsilon, t)
  | _ => (r, s)

mutual

/-- Alternation level of the fuel-indexed recursive-descent parser for the supported
regex subset (literals, escapes, digit class, grouping, alternation, quantifiers). -/
def parseAlt : Nat → List Char → Option (RegularExpression Char × List Char)
  | 0, _ => none
  | Nat.succ n, s =>
    match parseSeq n s with
    | none => none
    | some (r, rest) =>
      match rest with
      | '|' :: t =>
        match parseAlt n t with
        | none => none
        | some (r2, rest2) => some (RegularExpression.plus r r2, rest2)
      | _ => some (r, rest)

/-- Concatenation level of the parser. -/
def parseSeq : Nat → List Char → Option (RegularExpression Char × List Char)
  | 0, _ => none
  | Nat.succ n, s =>
    match s with
    | [] => some (RegularExpression.epsilon, [])
    | ')' :: _ => some (RegularExpression.epsilon, s)
    | '|' :: _ => some (RegularExpression.epsilon, s)
    | _ =>
      match parseAtom n s with
      | none => none
      | some (r, rest) =>
        match parseSeq n rest with
        | none => none
        | some (r2, rest2) => some (RegularExpression.comp r r2, rest2)

/-- Atom level of the parser: group, escape or literal, each with optional quantifier.
Constructs outside the modelled subset (dot, classes, stray quantifiers) yield `none`. -/
def parseAtom : Nat → List Char → Option (RegularExpression Char × List Char)
  | 0, _ => none
  | Nat.succ n, s =>
    match s with
    | [] => none
    | '(' :: t =>
      match parseAlt n t with
      | some (r, ')' :: t2) => some (parseRepeat r t2)
      | _ => none
    | '\\' :: c :: t =>
      match escRE c with
      | some r => some (parseRepeat r t)
      | none => none
    | '\\' :: [] => none
    | '.' :: _ => none
    | '[' :: _ => none
    | '*' :: _ => none
    | '+' :: _ => none
    | '?' :: _ => none
    | ')' :: _ => none
    | '|' :: _ => none
    | c :: t => some (parseRepeat (RegularExpression.char c) t)

end

/-- Model of re.compile for the supported subset; `none` outside the subset. -/
def compilePattern (p : String) : Option (RegularExpression Char) :=
  match parseAlt (3 * p.length + 4) p.data with
  | some (r, []) => some r
  | _ => none

/-- Model of Python re.match semantics: accept when the pattern matches some prefix of the
input, anchored at the start. -/
def matchFromStart (r : RegularExpression Char) : List Char → Bool
  | [] => r.rmatch []
  | c :: cs => r.rmatch [] || matchFromStart (r.deriv c) cs

/-- select_columns (operations.py): resolve a ColumnSelector against the dataframe columns.
Patterns outside the modelled regex subset resolve to no columns; resolution is only
characterised for the modelled subset. -/
def select_columns (df : DataFrame) (selector : ColumnSelector) : List String :=
  if selector.all then df.columns
  else if optListTruthy selector.columns then
    (selector.columns.getD []).filter (fun col => df.columns.contains col)
  else if optStrTruthy selector.pattern then
    match compilePattern (selector.pattern.getD "") with
    | some r => df.columns.filter (fun col => matchFromStart r col.data)
    | none => []
  else df.columns

/-- Look up each column's dtype in order; the engine raises on the first missing column. -/
def dtypesOf (df : DataFrame) : List String → Except CleanError (List (String × PDtype))
  | [] => .ok []
  | c :: cs =>
    match dtypeOf df c with
    | some dt => (dtypesOf df cs).map (fun ts => (c, dt) :: ts)
    | none => .error (.columnNotFound c)

/-- Apply a string function to every string cell of a column. -/
def strMapNamed (f : String → String) (c : NamedCol) : NamedCol :=
  { c with values := c.values.map (fun cell =>
      match cell with
      | some (.strV s) => some (.strV (f s))
      | v => v) }

/-- Apply a string transform to each listed target column (the with_columns batch is modelled
as independent per-column updates). -/
def applyStrOp (df : DataFrame) (targets : List (String × PDtype)) (f : String → String) :
    DataFrame :=
  targets.foldl (fun d t => mapCol d t.1 (strMapNamed f)) df

/-- drop_nulls (operations.py): drop rows with a null in any of the given columns. -/
def drop_nulls (df : DataFrame) (columns : List String) (_params : Params) :
    Except CleanError DataFrame :=
  if columns.isEmpty then .ok df
  else
    match dtypesOf df columns with
    | .error e => .error e
    | .ok _ =>
      let mask := (List.range df.height).map (fun i =>
        columns.all (fun c =>
          ((getColumn df c).map (fun col => (col.values.getD i none).isSome)).getD true))
      .ok (filterRowsBy df mask)

def fillNullCell (v : CellVal) : Cell → Cell
  | none => some v
  | c => c

/-- Fill nulls in each listed column with a fixed value.  Engine supertype promotion for
mismatched fill values is not modelled (no verified claim depends on it). -/
def fillWithValue (v : CellVal) : DataFrame → List String → Except CleanError DataFrame
  | df, [] => .ok df
  | df, c :: cs =>
    match dtypeOf df c with
    | none => .error (.columnNotFound c)
    | some _ =>
      fillWithValue v
        (mapCol df c (fun col => { col with values := col.values.map (fillNullCell v) })) cs

def forwardFillVals (prev : Cell) : List Cell → List Cell
  | [] => []
  | none :: vs => prev :: forwardFillVals prev vs
  | some v :: vs => some v :: forwardFillVals (some v) vs

def backwardFillVals (vs : List Cell) : List Cell := (forwardFillVals none vs.reverse).reverse

/-- Forward or backward fill for each listed column. -/
def fillScan (backward : Bool) : DataFrame → List String → Except CleanError DataFrame
  | df, [] => .ok df
  | df, c :: cs =>
    match dtypeOf df c with
    | none => .error (.columnNotFound c)
    | some _ =>
      fillScan backward
        (mapCol df c (fun col =>
          { col with values :=
              if backward then backwardFillVals col.values
              else forwardFillVals none col.values })) cs

/-- Fill a column's nulls with its own mean or median.  On integer and boolean columns the
engine promotes the filled column to Float64 (numeric supertype); an all-null column keeps its
values (fill with null). -/
def fillAggNamed (useMedian : Bool) (cc : NamedCol) : NamedCol :=
  let nn := nonNullQ cc.values
  match if useMedian then medianQ nn else meanQ nn with
  | none => cc
  | some m =>
    match cc.dtype with
    | .float32 => { cc with values := cc.values.map (fillNullCell (.floatV m)) }
    | .float64 => { cc with values := cc.values.map (fillNullCell (.floatV m)) }
    | .date => { cc with values := cc.values.map (fillNullCell (.dateV (round m))) }
    | .datetime => { cc with values := cc.values.map (fillNullCell (.datetimeV (round m))) }
    | _ =>
      let promoted := cc.values.map (fun cv =>
        match cv with
        | none => some (CellVal.floatV m)
        | some v => some (CellVal.floatV ((cellToQ v).getD 0)))
      { cc with dtype := PDtype.float64, values := promoted }

/-- Mean or median fill over the listed columns.  The source has no dtype guard here: the
aggregate expression is built for every resolved column, and the engine rejects mean and median
on string columns (InvalidOperationError). -/
def fillAggCols (useMedian : Bool) : DataFrame → List String → Except CleanError DataFrame
  | df, [] => .ok df
  | df, c :: cs =>
    match getColumn df c with
    | none => .error (.columnNotFound c)
    | some col =>
      if col.dtype = .utf8 then
        .error (.engineError "aggregate not supported for string dtype")
      else fillAggCols useMedian (mapCol df c (fillAggNamed useMedian)) cs

/-- fill_nulls (operations.py): fill nulls by fixed value or one of the strategies.
An unrecognised strategy, or strategy value with no value given, is a no-op. -/
def fill_nulls (df : DataFrame) (columns : List String) (params : Params) :
    Except CleanError DataFrame :=
  if columns.isEmpty then .ok df
  else
    let strategy := params.strategy.getD "value"
    if strategy = "value" then
      match params.value with
      | some (.cell v) => fillWithValue v df columns
      | some (.list _) => .error (.engineError "invalid fill value")
      | none => .ok df
    else if strategy = "forward" then fillScan false df columns
    else if strategy = "backward" then fillScan true df columns
    else if strategy = "mean" then fillAggCols false df columns
    else if strategy = "median" then fillAggCols true df columns
    else .ok df

/-- Keys used for deduplication: the listed columns' values, row by row. -/
def rowKeys (df : DataFrame) (subset : List String) : List (List Cell) :=
  (List.range df.height).map (fun i =>
    subset.map (fun c => ((getColumn df c).map (fun col => col.values.getD i none)).getD none))

/-- drop_duplicates (operations.py): with no columns deduplicate on all columns (full rows),
else on the subset.  The kept occurrence is modelled as the first in row order. -/
def drop_duplicates (df : DataFrame) (columns : List String) (_params : Params) :
    Except CleanError DataFrame :=
  if columns.isEmpty then .ok (filterRowsBy df (keepFirstMask [] (dfRows df)))
  else
    match dtypesOf df columns with
    | .error e => .error e
    | .ok _ => .ok (filterRowsBy df (keepFirstMask [] (rowKeys df columns)))

/-- trim_whitespace (operations.py): strip the string columns among the resolved ones. -/
def trim_whitespace (df : DataFrame) (columns : List String) (_params : Params) :
    Except CleanError DataFrame :=
  if columns.isEmpty then .ok df
  else
    match dtypesOf df columns with
    | .error e => .error e
    | .ok ts => .ok (applyStrOp df (ts.filter (fun t => t.2 == PDtype.utf8)) String.trim)

/-- lowercase (operations.py). -/
def lowercase (df : DataFrame) (columns : List String) (_params : Params) :
    Except CleanError DataFrame :=
  if columns.isEmpty then .ok df
  else
    match dtypesOf df columns with
    | .error e => .error e
    | .ok ts => .ok (applyStrOp df (ts.filter (fun t => t.2 == PDtype.utf8)) String.toLower)

/-- uppercase (operations.py). -/
def uppercase (df : DataFrame) (columns : List String) (_params : Params) :
    Except CleanError DataFrame :=
  if columns.isEmpty then .ok df
  else
    match dtypesOf df columns with
    | .error e => .error e
    | .ok ts => .ok (applyStrOp df (ts.filter (fun t => t.2 == PDtype.utf8)) String.toUpper)

/-- Longest match length of the pattern at the head of the list (0 when only the empty match or
no match applies). -/
def longestMatchAt (r : RegularExpression Char) (l : List Char) : Nat :=
  ((List.range (l.length + 1)).filter
    (fun n => decide (0 < n) && r.rmatch (l.take n))).foldl max 0

/-- Replace every non-overlapping leftmost match (longest-match approximation of the engine's
regex substitution; empty matches replace nothing). -/
def replaceAllCore (r : RegularExpression Char) (repl : List Char) :
    Nat → List Char → List Char
  | 0, l => l
  | _, [] => []
  | Nat.succ fuel, c :: cs =>
    let n := longestMatchAt r (c :: cs)
    if n = 0 then c :: replaceAllCore r repl fuel cs
    else repl ++ replaceAllCore r repl fuel ((c :: cs).drop n)

/-- Model of str.replace_all with a regex pattern; patterns outside the modelled subset leave
the string unchanged. -/
def replaceAllStr (pat repl : String) (s : String) : String :=
  match compilePattern pat with
  | none => s
  | some r => String.mk (replaceAllCore r repl.data (s.length + 1) s.data)

def replaceCellExact (v w : CellVal) : Cell → Cell
  | some x => if x = v then some w else some x
  | none => none

/-- Exact-value replacement over each listed column — note the source applies it to every
resolved column with no dtype filter. -/
def replaceValueAll (v w : CellVal) : DataFrame → List String → Except CleanError DataFrame
  | df, [] => .ok df
  | df, c :: cs =>
    match dtypeOf df c with
    | none => .error (.columnNotFound c)
    | some _ =>
      replaceValueAll v w
        (mapCol df c (fun col => { col with values := col.values.map (replaceCellExact v w) })) cs

/-- replace (operations.py): regex substitution when `pattern` is given without `value`
(string columns only), exact-value substitution when `value` is given (all columns), else no-op.
The replacement defaults to the empty string. -/
def replace (df : DataFrame) (columns : List String) (params : Params) :
    Except CleanError DataFrame :=
  if columns.isEmpty then .ok df
  else
    match params.pattern, params.value with
    | some pat, none =>
      let replacementStr :=
        match params.replacement with
        | some (.cell (.strV s)) => s
        | _ => ""
      match dtypesOf df columns with
      | .error e => .error e
      | .ok ts =>
        .ok (applyStrOp df (ts.filter (fun t => t.2 == PDtype.utf8))
          (replaceAllStr pat replacementStr))
    | _, some (.cell v) =>
      let w :=
        match params.replacement with
        | some (.cell c) => c
        | _ => CellVal.strV ""
      replaceValueAll v w df columns
    | _, some (.list _) => .error (.engineError "invalid replace value")
    | none, none => .ok df

def digitsToNat (ds : List Char) : Option Nat :=
  if ds.isEmpty || !(ds.all Char.isDigit) then none
  else some (ds.foldl (fun acc c => 10 * acc + (c.toNat - 48)) 0)

/-- Integer parser for string-to-integer casts (optional sign then digits, as the engine's
strict string parsing). -/
def parseIntS (s : String) : Option Int :=
  match s.data with
  | '-' :: ds => (digitsToNat ds).map (fun n => -(n : Int))
  | '+' :: ds => (digitsToNat ds).map (fun n => (n : Int))
  | ds => (digitsToNat ds).map (fun n => (n : Int))

/-- The type_mapping dict of cast_type (operations.py): canonical names to engine dtypes. -/
def type_mapping (t : String) : Option PDtype :=
  if t = "int" then some .int64
  else if t = "float" then some .float64
  else if t = "str" then some .utf8
  else if t = "bool" then some .boolean
  else if t = "date" then some .date
  else if t = "datetime" then some .datetime
  else none

/-- Simple decimal parser for string-to-float casts (no exponents; approximates the engine). -/
def parseQ (s : String) : Option ℚ :=
  let signBody : ℚ × List Char :=
    match s.data with
    | '-' :: t => (-1, t)
    | '+' :: t => (1, t)
    | t => (1, t)
  match signBody.2.splitOn '.' with
  | [ip] => (digitsToNat ip).map (fun n => signBody.1 * (n : ℚ))
  | [ip, fp] =>
    match digitsToNat ip, digitsToNat fp with
    | some n, some f =>
      some (signBody.1 * ((n : ℚ) + (f : ℚ) / ((10 : ℚ) ^ fp.length)))
    | _, _ => none
  | _ => none

/-- Rendering used by casts to string (approximates the engine's float formatting; no verified
claim depends on the exact text). -/
def renderQ (q : ℚ) : String :=
  if q.den = 1 then toString q.num else toString q.num ++ "/" ++ toString q.den

/-- Truncation toward zero, as the engine's float-to-int cast. -/
def truncQ (q : ℚ) : Int := if 0 ≤ q then ⌊q⌋ else ⌈q⌉

def microsecondsPerDay : Int := 86400000000

/-- Per-value cast semantics of the engine for the mapped target dtypes; `none` is a failing
cast.  String-to-temporal parsing is not modelled and counts as a failing cast. -/
def castCell (v : CellVal) : PDtype → Option CellVal
  | .int64 =>
    match v with
    | .intV i => some (.intV i)
    | .floatV q => some (.intV (truncQ q))
    | .boolV b => some (.intV (if b then 1 else 0))
    | .strV s => (parseIntS s).map (fun i => .intV i)
    | .dateV d => some (.intV d)
    | .datetimeV t => some (.intV t)
  | .float64 =>
    match v with
    | .intV i => some (.floatV (i : ℚ))
    | .floatV q => some (.floatV q)
    | .boolV b => some (.floatV (if b then 1 else 0))
    | .strV s => (parseQ s).map (fun q => .floatV q)
    | .dateV d => some (.floatV (d : ℚ))
    | .datetimeV t => some (.floatV (t : ℚ))
  | .utf8 =>
    match v with
    | .intV i => some (.strV (toString i))
    | .floatV q => some (.strV (renderQ q))
    | .boolV b => some (.strV (if b then "true" else "false"))
    | .strV s => some (.strV s)
    | .dateV d => some (.strV (toString d))
    | .datetimeV t => some (.strV (toString t))
  | .boolean =>
    match v with
    | .intV i => some (.boolV (i != 0))
    | .floatV q => some (.boolV (q != 0))
    | .boolV b => some (.boolV b)
    | .strV s => if s = "true" then some (.boolV true)
        else if s = "false" then some (.boolV false) else none
    | .dateV _ => none
    | .datetimeV _ => none
  | .date =>
    match v with
    | .intV i => some (.dateV i)
    | .floatV q => some (.dateV (truncQ q))
    | .boolV _ => none
    | .strV _ => none
    | .dateV d => some (.dateV d)
    | .datetimeV t => some (.dateV (Int.fdiv t microsecondsPerDay))
  | .datetime =>
    match v with
    | .intV i => some (.datetimeV i)
    | .floatV q => some (.datetimeV (truncQ q))
    | .boolV _ => none
    | .strV _ => none
    | .dateV d => some (.datetimeV (d * microsecondsPerDay))
    | .datetimeV t => some (.datetimeV t)
  | _ => none

/-- Cast a column's cells; with strict the first failing value is an error, without it a null. -/
def castColVals (dt : PDtype) (strict : Bool) (cname : String) :
    List Cell → Except CleanError (List Cell)
  | [] => .ok []
  | none :: vs => (castColVals dt strict cname vs).map (fun ws => none :: ws)
  | some v :: vs =>
    match castCell v dt with
    | some w => (castColVals dt strict cname vs).map (fun ws => some w :: ws)
    | none =>
      if strict then .error (.castFailed cname)
      else (castColVals dt strict cname vs).map (fun ws => none :: ws)

def castLoop (dt : PDtype) (strict : Bool) : DataFrame → List String → Except CleanError DataFrame
  | df, [] => .ok df
  | df, c :: cs =>
    match getColumn df c with
    | none => .error (.columnNotFound c)
    | some col =>
      match castColVals dt strict c col.values with
      | .error e => .error e
      | .ok vs => castLoop dt strict (mapCol df c (fun cc => { cc with dtype := dt, values := vs })) cs

/-- cast_type (operations.py): map the canonical dtype name through type_mapping and cast the
resolved columns; an unmapped name falls through as a raw string, which the engine rejects. -/
def cast_type (df : DataFrame) (columns : List String) (params : Params) :
    Except CleanError DataFrame :=
  if columns.isEmpty then .ok df
  else
    match params.dtype with
    | none => .ok df
    | some t =>
      if t = "" then .ok df
      else
        match type_mapping t with
        | none => .error (.invalidDtype t)
        | some dt => castLoop dt (params.strict.getD false) df columns

def cellEqB (x v : CellVal) : Option Bool :=
  match cellToQ x, cellToQ v with
  | some a, some b => some (decide (a = b))
  | _, _ =>
    match x, v with
    | .strV a, .strV b => some (a == b)
    | _, _ => none

def cellLtB (x v : CellVal) : Option Bool :=
  match cellToQ x, cellToQ v with
  | some a, some b => some (decide (a < b))
  | _, _ =>
    match x, v with
    | .strV a, .strV b => some (decide (a < b))
    | _, _ => none

/-- Comparison predicate of the filter operation on one cell; `none` models an engine type
mismatch error, and a null cell compares to null, which the filter drops. -/
def cellPred (op : String) (v : ParamVal) (cell : Cell) : Option Bool :=
  match cell with
  | none => some false
  | some x =>
    match v with
    | .list l =>
      if op = "in" then some (l.any (fun w => (cellEqB x w).getD false)) else none
    | .cell w =>
      if op = "==" then cellEqB x w
      else if op = "!=" then (cellEqB x w).map (fun b => !b)
      else if op = ">" then cellLtB w x
      else if op = ">=" then (cellLtB x w).map (fun b => !b)
      else if op = "<" then cellLtB x w
      else if op = "<=" then (cellLtB w x).map (fun b => !b)
      else none

def filterMask (op : String) (v : ParamVal) : List Cell → Except CleanError (List Bool)
  | [] => .ok []
  | cell :: rest =>
    match cellPred op v cell with
    | none => .error (.engineError "cannot compare values")
    | some b => (filterMask op v rest).map (fun bs => b :: bs)

/-- filter (operations.py): build a comparison on the first resolved column and keep matching
rows; unknown operators are a no-op. -/
def filter_rows (df : DataFrame) (columns : List String) (params : Params) :
    Except CleanError DataFrame :=
  let operator := params.operator.getD "=="
  match params.value with
  | none => .ok df
  | some v =>
    if columns.isEmpty then .ok df
    else if !((["==", "!=", ">", ">=", "<", "<=", "in"]).contains operator) then .ok df
    else
      match getColumn df (columns.headD "") with
      | none => .error (.columnNotFound (columns.headD ""))
      | some col =>
        match filterMask operator v col.values with
        | .error e => .error e
        | .ok mask => .ok (filterRowsBy df mask)

/-- One IQR filtering pass over the current dataframe, driven by one numeric column.  A column
with no non-null values makes the source subtract None from None, an error. -/
def iqrFilterCol (threshold : ℚ) (df : DataFrame) (col : NamedCol) :
    Except CleanError DataFrame :=
  match quantileQ (nonNullQ col.values) (1 / 4), quantileQ (nonNullQ col.values) (3 / 4) with
  | some q1, some q3 =>
    let lower := q1 - threshold * (q3 - q1)
    let upper := q3 + threshold * (q3 - q1)
    .ok (filterRowsBy df (col.values.map (fun cell =>
      match cell.bind cellToQ with
      | some x => decide (lower ≤ x ∧ x ≤ upper)
      | none => false)))
  | _, _ => .error (.engineError "quantile of empty column")

/-- One Z-score filtering pass; a null or zero std skips the column, as the source's
truthiness test does. -/
def zscoreFilterCol (threshold : ℚ) (df : DataFrame) (col : NamedCol) : DataFrame :=
  let nn := nonNullQ col.values
  match meanQ nn, stdQ nn with
  | some m, some s =>
    if 0 < s then
      filterRowsBy df (col.values.map (fun cell =>
        match cell.bind cellToQ with
        | some x => decide (|x - m| ≤ threshold * s)
        | none => false))
    else df
  | _, _ => df

/-- The sequential per-column loop of remove_outliers: each pass filters rows of the dataset
already filtered by the previous columns, and non-numeric columns are skipped. -/
def removeOutliersLoop (method : String) (threshold : ℚ) :
    DataFrame → List String → Except CleanError DataFrame
  | df, [] => .ok df
  | df, c :: cs =>
    match getColumn df c with
    | none => .error (.columnNotFound c)
    | some col =>
      if !(numericDtypes.contains col.dtype) then removeOutliersLoop method threshold df cs
      else if method = "iqr" then
        match iqrFilterCol threshold df col with
        | .error e => .error e
        | .ok df2 => removeOutliersLoop method threshold df2 cs
      else if method = "zscore" then
        removeOutliersLoop method threshold (zscoreFilterCol threshold df col) cs
      else removeOutliersLoop method threshold df cs

/-- remove_outliers (operations.py): IQR (default) or Z-score, threshold default 1.5. -/
def remove_outliers (df : DataFrame) (columns : List String) (params : Params) :
    Except CleanError DataFrame :=
  if columns.isEmpty then .ok df
  else removeOutliersLoop (params.method.getD "iqr") (params.threshold.getD (3 / 2)) df columns

/-- Z-score normalisation of one column from its own mean and std.  A null or zero std makes
the engine produce non-finite values, modelled as nulls. -/
def standardizeCol (cc : NamedCol) : NamedCol :=
  let nn := nonNullQ cc.values
  match meanQ nn, stdQ nn with
  | some m, some s =>
    if s = 0 then { cc with dtype := PDtype.float64, values := cc.values.map (fun _ => none) }
    else
      let scaled := cc.values.map (fun cell =>
        match cell.bind cellToQ with
        | some x => some (CellVal.floatV ((x - m) / s))
        | none => (none : Cell))
      { cc with dtype := PDtype.float64, values := scaled }
  | _, _ => { cc with dtype := PDtype.float64, values := cc.values.map (fun _ => none) }

/-- standardize (operations.py): z-score normalisation of the numeric resolved columns. -/
def standardize (df : DataFrame) (columns : List String) (_params : Params) :
    Except CleanError DataFrame :=
  if columns.isEmpty then .ok df
  else
    match dtypesOf df columns with
    | .error e => .error e
    | .ok ts =>
      .ok ((ts.filter (fun t => numericDtypes.contains t.2)).foldl
        (fun d t => mapCol d t.1 standardizeCol) df)

abbrev OperationFn := DataFrame → List String → Params → Except CleanError DataFrame

/-- The OPERATIONS registry (operations.py).  `validate` is in the rule enumeration but has no
registry entry. -/
def OPERATIONS : CleaningOperation → Option OperationFn
  | .drop_nulls => some drop_nulls
  | .fill_nulls => some fill_nulls
  | .drop_duplicates => some drop_duplicates
  | .trim_whitespace => some trim_whitespace
  | .lowercase => some lowercase
  | .uppercase => some uppercase
  | .replace => some replace
  | .cast_type => some cast_type
  | .filter => some filter_rows
  | .remove_outliers => some remove_outliers
  | .standardize => some standardize
  | .validate => none

def contractColOk (df : DataFrame) (name : String) (spec : ColSpec) : Bool :=
  match getColumn df name with
  | none => false
  | some col =>
    (match spec.dtype with
     | none => true
     | some dt => col.dtype == dt) &&
    (spec.nullable || col.values.all (·.isSome)) &&
    (match spec.minVal with
     | none => true
     | some m => (nonNullQ col.values).all (fun x => decide (m ≤ x))) &&
    (match spec.maxVal with
     | none => true
     | some m => (nonNullQ col.values).all (fun x => decide (x ≤ m)))

/-- SchemaValidator.validate (validation.py): the pandera collaborator, modelled by column
presence, dtype, nullability, numeric bounds and the strict unknown-column policy.  Regex and
membership checks and coercion are not modelled (no verified claim depends on them). -/
def SchemaValidator.validate (df : DataFrame) (c : DataContract) (phase : String) :
    Except CleanError DataFrame :=
  if !(c.columns.all (fun p => contractColOk df p.1 p.2)) then
    .error (.contractViolation phase "column check failed")
  else if c.strict && !(df.columns.all (fun n => (c.columns.map (·.1)).contains n)) then
    .error (.contractViolation phase "unknown column")
  else .ok df

/-- CleaningEngine._apply_rule (engine.py): registry dispatch, column resolution, application. -/
def applyRule (df : DataFrame) (rule : CleaningRule) : Except CleanError DataFrame :=
  match OPERATIONS rule.operation with
  | none => .error (.unknownOperation rule.operation)
  | some op => op df (select_columns df rule.columns) rule.parameters

/-- The rule loop of CleaningEngine.clean: skip disabled rules, thread the working dataset. -/
def applyRules (df : DataFrame) : List CleaningRule → Except CleanError DataFrame
  | [] => .ok df
  | rule :: rest =>
    if rule.enabled then
      match applyRule df rule with
      | .error e => .error e
      | .ok df2 => applyRules df2 rest
    else applyRules df rest

def validateInputStep (cfg : RuleConfig) (df : DataFrame) (vi : Bool) :
    Except CleanError DataFrame :=
  if vi then
    match cfg.input_contract with
    | some c => SchemaValidator.validate df c "input"
    | none => .ok df
  else .ok df

def validateOutputStep (cfg : RuleConfig) (df : DataFrame) (vo : Bool) :
    Except CleanError DataFrame :=
  if vo then
    match cfg.output_contract with
    | some c => SchemaValidator.validate df c "output"
    | none => .ok df
  else .ok df

/-- CleaningEngine.clean (engine.py): validate input, apply the enabled rules in order,
validate output.  The tracing side channel never affects results and is not modelled. -/
def clean (cfg : RuleConfig) (df : DataFrame) (vi vo : Bool) : Except CleanError DataFrame :=
  match validateInputStep cfg df vi with
  | .error e => .error e
  | .ok df1 =>
    match applyRules df1 cfg.rules with
    | .error e => .error e
    | .ok df2 => validateOutputStep cfg df2 vo

/-- DuckDBStorage (storage.py): the connection holds the database's tables as row lists. -/
structure DuckDBStorage where
  db_path : String
  connection : Option (List (String × List (List Cell)))
  deriving DecidableEq

/-- Name lookup in the connection's table list (the information_schema query of the source). -/
def tableLookup (a : String) : List (String × β) → Option β
  | [] => none
  | (k, b) :: es => if k = a then some b else tableLookup a es

/-- DuckDBStorage.save_dataframe (storage.py): drop on replace, reject an existing table on
fail, CREATE TABLE IF NOT EXISTS from the dataframe, then on append INSERT the same rows. -/
def save_dataframe (st : DuckDBStorage) (df : DataFrame) (table_name : String)
    (if_exists : String) : Except CleanError DuckDBStorage :=
  match st.connection with
  | none => .error .notConnected
  | some tables =>
    let afterPolicy : Except CleanError (List (String × List (List Cell))) :=
      if if_exists = "replace" then .ok (tables.filter (fun p => p.1 != table_name))
      else if if_exists = "fail" then
        if (tableLookup table_name tables).isSome then .error (.tableExists table_name)
        else .ok tables
      else .ok tables
    match afterPolicy with
    | .error e => .error e
    | .ok tables1 =>
      let tables2 :=
        if (tableLookup table_name tables1).isSome then tables1
        else tables1 ++ [(table_name, dfRows df)]
      let tables3 :=
        if if_exists = "append" then
          tables2.map (fun p => if p.1 == table_name then (p.1, p.2 ++ dfRows df) else p)
        else tables2
      .ok { st with connection := some tables3 }

/-- Table contents seen through a save result (for stating storage properties). -/
def storageLookup (r : Except CleanError DuckDBStorage) (t : String) :
    Option (List (List Cell)) :=
  match r with
  | .ok st => tableLookup t (st.connection.getD [])
  | .error _ => none

/-- Column values seen through an operation result (for stating preservation properties). -/
def resultColVals (r : Except CleanError DataFrame) (name : String) : Option (List Cell) :=
  match r with
  | .ok d => colVals d name
  | .error _ => none

/-! Concrete instances used by witnesses and counterexamples. -/

/-- A two-column frame: a string column with a null and an integer column. -/
def dfMixed : DataFrame :=
  ⟨[⟨"s", .utf8, [some (.strV "a"), none]⟩,
    ⟨"n", .int64, [some (.intV 1), some (.intV 2)]⟩]⟩

/-- A string column holding one numeric and one non-numeric text. -/
def dfDigits : DataFrame :=
  ⟨[⟨"v", .utf8, [some (.strV "1"), some (.strV "x"), none]⟩]⟩

/-- The column set of the spec's pattern-resolution example. -/
def dfPatterned : DataFrame :=
  ⟨[⟨"col_1", .utf8, [some (.strV "A")]⟩,
    ⟨"xcol_1", .utf8, [some (.strV "B")]⟩,
    ⟨"other", .utf8, [some (.strV "C")]⟩,
    ⟨"col_23", .utf8, [some (.strV "D")]⟩]⟩

def selPattern : ColumnSelector := { pattern := some "col_\\d+" }

/-- The compiled form of the example pattern (its compilation is checked by `rfl` where used). -/
def compiledPattern : RegularExpression Char :=
  (compilePattern "col_\\d+").getD RegularExpression.zero

/-- A rule whose strict cast fails on `dfDigits` (the text x does not parse as an integer). -/
def ruleStrictCast : CleaningRule :=
  { name := "cast", operation := .cast_type, columns := { columns := some ["v"] },
    parameters := { dtype := some "int", strict := some true }, order := 0 }

/-- An enabled rule whose operation has no registry entry. -/
def ruleUnknownOp : CleaningRule :=
  { name := "check", operation := .validate, order := 1 }

/-- A failing-cast rule followed by a registry-absent rule. -/
def cfgCastThenUnknown : RuleConfig :=
  mkRuleConfig "c2" none none [ruleStrictCast, ruleUnknownOp]

/-- A configuration holding only the registry-absent rule. -/
def cfgOnlyUnknown : RuleConfig := mkRuleConfig "c2w" none none [ruleUnknownOp]

/-- A disabled trim rule, for the disabled-rule-removal witness. -/
def ruleDisabledTrim : CleaningRule :=
  { name := "trim", operation := .trim_whitespace, columns := { columns := some ["s"] },
    enabled := false, order := 0 }

/-- In-memory storage with an open connection and no tables. -/
def stEmpty : DuckDBStorage := ⟨":memory:", some []⟩

/-! Basic lemmas about the dataframe model. -/

theorem getColumn_mapCol_of_ne (df : DataFrame) (n m : String) (f : NamedCol → NamedCol)
    (hm : m ≠ n) (hf : ∀ c, (f c).name = c.name) :
    getColumn (mapCol df n f) m = getColumn df m := by
  rcases df with ⟨cols⟩
  simp only [getColumn, mapCol]
  induction cols with
  | nil => rfl
  | cons c cs ih =>
    simp only [List.map_cons]
    by_cases hc : c.name = n
    · rw [if_pos (beq_iff_eq.mpr hc)]
      rw [List.find?_cons_of_neg _ (by simp [hf c, hc]; exact fun h => hm h.symm)]
      rw [List.find?_cons_of_neg _ (by simp [hc]; exact fun h => hm h.symm)]
      exact ih
    · rw [if_neg (by simp [hc])]
      by_cases hcm : c.name = m
      · rw [List.find?_cons_of_pos _ (by simp [hcm]),
          List.find?_cons_of_pos _ (by simp [hcm])]
      · rw [List.find?_cons_of_neg _ (by simp [hcm]),
          List.find?_cons_of_neg _ (by simp [hcm])]
        exact ih

theorem getColumn_mapCol_self (df : DataFrame) (n : String) (f : NamedCol → NamedCol)
    (hf : ∀ c, (f c).name = c.name) :
    getColumn (mapCol df n f) n = (getColumn df n).map f := by
  rcases df with ⟨cols⟩
  simp only [getColumn, mapCol]
  induction cols with
  | nil => rfl
  | cons c cs ih =>
    simp only [List.map_cons]
    by_cases hc : c.name = n
    · rw [if_pos (beq_iff_eq.mpr hc)]
      rw [List.find?_cons_of_pos _ (by simp [hf c, hc]),
        List.find?_cons_of_pos _ (by simp [hc])]
      rfl
    · rw [if_neg (by simp [hc])]
      rw [List.find?_cons_of_neg _ (by simp [hc]),
        List.find?_cons_of_neg _ (by simp [hc])]
      exact ih

theorem colVals_mapCol_of_ne (df : DataFrame) (n m : String) (f : NamedCol → NamedCol)
    (hm : m ≠ n) (hf : ∀ c, (f c).name = c.name) :
    colVals (mapCol df n f) m = colVals df m := by
  unfold colVals
  rw [getColumn_mapCol_of_ne df n m f hm hf]

theorem dtypeOf_mapCol_of_ne (df : DataFrame) (n m : String) (f : NamedCol → NamedCol)
    (hm : m ≠ n) (hf : ∀ c, (f c).name = c.name) :
    dtypeOf (mapCol df n f) m = dtypeOf df m := by
  unfold dtypeOf
  rw [getColumn_mapCol_of_ne df n m f hm hf]

theorem getColumn_isSome_of_mem (df : DataFrame) (c : String) (h : c ∈ df.columns) :
    (getColumn df c).isSome := by
  unfold getColumn
  rw [List.find?_isSome]
  obtain ⟨col, hcol, hname⟩ := List.mem_map.mp h
  exact ⟨col, hcol, by simp [hname]⟩

theorem colVals_foldl_mapCol_of_not_mem (g : NamedCol → NamedCol)
    (hg : ∀ c, (g c).name = c.name) (name : String) :
    ∀ (ts : List (String × PDtype)) (df : DataFrame), (∀ p ∈ ts, p.1 ≠ name) →
    colVals (ts.foldl (fun d t => mapCol d t.1 g) df) name = colVals df name := by
  intro ts
  induction ts with
  | nil => intro df _; rfl
  | cons t ts ih =>
    intro df hnot
    rw [List.foldl_cons, ih _ (fun p hp => hnot p (List.mem_cons_of_mem _ hp))]
    exact colVals_mapCol_of_ne df t.1 name g
      (fun h => hnot t (List.mem_cons_self _ _) h.symm) hg

/-! Lemmas about dtype lookup of resolved columns. -/

theorem dtypesOf_ok_mem (df : DataFrame) :
    ∀ (cols : List String) (ts : List (String × PDtype)),
    dtypesOf df cols = .ok ts → ∀ p ∈ ts, dtypeOf df p.1 = some p.2 := by
  intro cols
  induction cols with
  | nil =>
    intro ts h p hp
    simp only [dtypesOf] at h
    cases h
    cases hp
  | cons c cs ih =>
    intro ts h p hp
    simp only [dtypesOf] at h
    cases hdt : dtypeOf df c with
    | none => rw [hdt] at h; cases h
    | some dt =>
      rw [hdt] at h
      cases hrec : dtypesOf df cs with
      | error e => rw [hrec] at h; simp [Except.map] at h
      | ok ts' =>
        rw [hrec] at h
        simp only [Except.map] at h
        cases h
        rcases List.mem_cons.mp hp with h1 | h2
        · subst h1; exact hdt
        · exact ih ts' hrec p h2

theorem dtypesOf_exists_of_subset (df : DataFrame) :
    ∀ cols : List String, (∀ c ∈ cols, c ∈ df.columns) →
    ∃ ts, dtypesOf df cols = .ok ts := by
  intro cols
  induction cols with
  | nil => exact fun _ => ⟨[], rfl⟩
  | cons c cs ih =>
    intro h
    obtain ⟨ts, hts⟩ := ih (fun x hx => h x (List.mem_cons_of_mem _ hx))
    have hsome : (getColumn df c).isSome :=
      getColumn_isSome_of_mem df c (h c (List.mem_cons_self _ _))
    obtain ⟨col, hcol⟩ := Option.isSome_iff_exists.mp hsome
    exact ⟨(c, col.dtype) :: ts, by simp [dtypesOf, dtypeOf, hcol, hts, Except.map]⟩

/-! The keep-first deduplication mask keeps exactly one representative per key. -/

theorem maskFilter_cons (b : Bool) (m : List Bool) (x : α) (xs : List α) :
    maskFilter (b :: m) (x :: xs)
      = if b then x :: maskFilter m xs else maskFilter m xs := by
  cases b <;> simp [maskFilter]

theorem keepFirst_spec [DecidableEq κ] :
    ∀ (ks seen : List κ),
      (maskFilter (keepFirstMask seen ks) ks).Nodup ∧
      (∀ k ∈ maskFilter (keepFirstMask seen ks) ks, k ∉ seen) ∧
      (∀ k ∈ ks, k ∉ seen → k ∈ maskFilter (keepFirstMask seen ks) ks) := by
  intro ks
  induction ks with
  | nil => intro seen; simp [keepFirstMask, maskFilter]
  | cons k ks ih =>
    intro seen
    by_cases hk : k ∈ seen
    · rw [show keepFirstMask seen (k :: ks) = false :: keepFirstMask seen ks by
        simp [keepFirstMask, hk]]
      rw [maskFilter_cons, if_neg (by simp)]
      obtain ⟨h1, h2, h3⟩ := ih seen
      refine ⟨h1, h2, fun x hx hxs => ?_⟩
      rcases List.mem_cons.mp hx with rfl | h
      · exact absurd hk hxs
      · exact h3 x h hxs
    · rw [show keepFirstMask seen (k :: ks) = true :: keepFirstMask (k :: seen) ks by
        simp [keepFirstMask, hk]]
      rw [maskFilter_cons, if_pos rfl]
      obtain ⟨h1, h2, h3⟩ := ih (k :: seen)
      refine ⟨?_, ?_, ?_⟩
      · rw [List.nodup_cons]
        exact ⟨fun hmem => (h2 k hmem) (List.mem_cons_self _ _), h1⟩
      · intro x hx
        rcases List.mem_cons.mp hx with rfl | h
        · exact hk
        · exact fun hxs => (h2 x h) (List.mem_cons_of_mem _ hxs)
      · intro x hx hxs
        rcases List.mem_cons.mp hx with rfl | h
        · exact List.mem_cons_self _ _
        · by_cases hxk : x = k
          · subst hxk; exact List.mem_cons_self _ _
          · exact List.mem_cons_of_mem _ (h3 x h (by simp [hxk, hxs]))

/-! Lemmas about the rule loop. -/

theorem applyRules_filter_enabled :
    ∀ (l : List CleaningRule) (df : DataFrame),
    applyRules df (l.filter (fun r => r.enabled)) = applyRules df l := by
  intro l
  induction l with
  | nil => intro df; rfl
  | cons r rs ih =>
    intro df
    by_cases hr : r.enabled
    · rw [List.filter_cons_of_pos (by simp [hr])]
      simp only [applyRules, if_pos hr]
      cases applyRule df r with
      | error e => rfl
      | ok d => exact ih d
    · rw [List.filter_cons_of_neg (by simp [hr])]
      simp only [applyRules, if_neg hr]
      exact ih df

theorem applyRules_append (l₁ l₂ : List CleaningRule) :
    ∀ df, applyRules df (l₁ ++ l₂)
      = match applyRules df l₁ with
        | .ok d => applyRules d l₂
        | .error e => .error e := by
  induction l₁ with
  | nil => intro df; rfl
  | cons r rs ih =>
    intro df
    simp only [List.cons_append, applyRules]
    by_cases hr : r.enabled
    · simp only [if_pos hr]
      cases applyRule df r with
      | error e => rfl
      | ok d => exact ih d
    · simp only [if_neg hr]
      exact ih df

theorem applyRules_err_of_unknown (r : CleaningRule) :
    ∀ (l : List CleaningRule) (df : DataFrame), r ∈ l → r.enabled = true →
    OPERATIONS r.operation = none → isErr (applyRules df l) = true := by
  intro l
  induction l with
  | nil => intro df h; cases h
  | cons x xs ih =>
    intro df hmem hen hop
    rcases List.mem_cons.mp hmem with rfl | hmem'
    · simp only [applyRules, if_pos hen, applyRule, hop]
      rfl
    · simp only [applyRules]
      by_cases hx : x.enabled
      · simp only [if_pos hx]
        cases applyRule df x with
        | error e => rfl
        | ok d => exact ih d hmem' hen hop
      · simp only [if_neg hx]
        exact ih df hmem' hen hop

/-! Lemmas about the stable sort of the rule list. -/

theorem orderedInsert_eq_cons (x : CleaningRule) (s : List CleaningRule)
    (h : ∀ z ∈ s, ruleLe x z) : List.orderedInsert ruleLe x s = x :: s := by
  cases s with
  | nil => rfl
  | cons y ys =>
    simp only [List.orderedInsert]
    rw [if_pos (h y (List.mem_cons_self _ _))]

theorem filter_orderedInsert_neg (p : CleaningRule → Bool) (x : CleaningRule)
    (hx : p x = false) :
    ∀ s : List CleaningRule,
    (List.orderedInsert ruleLe x s).filter p = s.filter p := by
  intro s
  induction s with
  | nil => simp [List.orderedInsert, hx]
  | cons y ys ih =>
    simp only [List.orderedInsert]
    by_cases hr : ruleLe x y
    · rw [if_pos hr]
      simp [List.filter_cons, hx]
    · rw [if_neg hr]
      simp only [List.filter_cons]
      cases hy : p y <;> simp [ih]

theorem filter_orderedInsert_pos (p : CleaningRule → Bool) (x : CleaningRule)
    (hx : p x = true) :
    ∀ s : List CleaningRule, List.Sorted ruleLe s →
    (List.orderedInsert ruleLe x s).filter p
      = List.orderedInsert ruleLe x (s.filter p) := by
  intro s
  induction s with
  | nil => intro _; simp [List.orderedInsert, hx]
  | cons y ys ih =>
    intro hs
    obtain ⟨hy_le, hys⟩ := List.sorted_cons.mp hs
    simp only [List.orderedInsert]
    by_cases hr : ruleLe x y
    · rw [if_pos hr]
      have hall : ∀ z ∈ (y :: ys).filter p, ruleLe x z := by
        intro z hz
        have hz' := List.mem_of_mem_filter hz
        rcases List.mem_cons.mp hz' with rfl | hz''
        · exact hr
        · exact Trans.trans hr (hy_le z hz'')
      rw [orderedInsert_eq_cons x _ hall]
      simp [List.filter_cons, hx]
    · rw [if_neg hr]
      simp only [List.filter_cons]
      by_cases hy : p y = true
      · rw [if_pos hy, if_pos hy, ih hys]
        simp only [List.orderedInsert]
        rw [if_neg hr]
      · rw [if_neg hy, if_neg hy]
        exact ih hys

theorem filter_sort_rules (p : CleaningRule → Bool) :
    ∀ l : List CleaningRule,
    (sort_rules_by_order l).filter p = sort_rules_by_order (l.filter p) := by
  intro l
  induction l with
  | nil => rfl
  | cons x xs ih =>
    simp only [sort_rules_by_order, List.insertionSort] at *
    cases hx : p x with
    | true =>
      rw [filter_orderedInsert_pos p x hx _ (List.sorted_insertionSort ruleLe xs), ih]
      rw [show (x :: xs).filter p = x :: xs.filter p by simp [List.filter_cons, hx]]
      rfl
    | false =>
      rw [filter_orderedInsert_neg p x hx, ih]
      rw [show (x :: xs).filter p = xs.filter p by simp [List.filter_cons, hx]]

theorem sort_rules_of_mutual_le :
    ∀ l : List CleaningRule, (∀ a ∈ l, ∀ b ∈ l, ruleLe a b) →
    sort_rules_by_order l = l := by
  intro l
  induction l with
  | nil => intro _; rfl
  | cons x xs ih =>
    intro h
    simp only [sort_rules_by_order, List.insertionSort] at *
    rw [ih (fun a ha b hb =>
      h a (List.mem_cons_of_mem _ ha) b (List.mem_cons_of_mem _ hb))]
    exact orderedInsert_eq_cons x xs
      (fun z hz => h x (List.mem_cons_self _ _) z (List.mem_cons_of_mem _ hz))

/-! Claim theorems. -/

/-- C5: for every ColumnSelector construction in which more than one of the three selection
modes (name list, pattern, all) is set — set in the Python-truthiness sense the validator
tests — construction fails with a validation error; the check lives in the construction-time
validator, and column resolution itself is a total function that never fails. -/
theorem selector_mutual_exclusion (s : ColumnSelector)
    (h : (optListTruthy s.columns && optStrTruthy s.pattern
        || optStrTruthy s.pattern && s.all
        || optListTruthy s.columns && s.all) = true) :
    isErr (validate_selector s) = true := by
  unfold validate_selector
  cases hc : optListTruthy s.columns <;> cases hp : optStrTruthy s.pattern <;>
    cases ha : s.all <;> simp_all [isErr]

theorem selector_mutual_exclusion_witness :
    (optListTruthy (some ["a"]) && optStrTruthy (some "b.*")
        || optStrTruthy (some "b.*") && false
        || optListTruthy (some ["a"]) && false) = true ∧
    isErr (validate_selector ⟨some ["a"], some "b.*", false⟩) = true :=
  ⟨by decide, selector_mutual_exclusion ⟨some ["a"], some "b.*", false⟩ (by decide)⟩

/-- C6: the rules observable after RuleConfig construction are sorted by the integer order
field in non-decreasing order, and rules with equal order keep their original declaration
order (the filter on any fixed order value is unchanged — a stable sort). -/
theorem rules_sorted_and_stable (name : String) (ic oc : Option DataContract)
    (rules : List CleaningRule) (k : Int) :
    List.Sorted ruleLe (mkRuleConfig name ic oc rules).rules ∧
    (mkRuleConfig name ic oc rules).rules.filter (fun r => r.order == k)
      = rules.filter (fun r => r.order == k) := by
  constructor
  · exact List.sorted_insertionSort ruleLe rules
  · show (sort_rules_by_order rules).filter (fun r => r.order == k) = _
    rw [filter_sort_rules]
    apply sort_rules_of_mutual_le
    intro a ha b hb
    have ha' : a.order = k := by simpa using (List.mem_filter.mp ha).2
    have hb' : b.order = k := by simpa using (List.mem_filter.mp hb).2
    show a.order ≤ b.order
    rw [ha', hb']

/-- C8: every registry operation applied with an empty resolved-column list returns the
dataset unchanged, except drop-duplicates, which deduplicates on all columns: its keep-first
mask produces duplicate-free full rows and keeps a representative of every row. -/
theorem operations_empty_columns :
    (∀ (op : CleaningOperation) (f : OperationFn) (df : DataFrame) (params : Params),
      OPERATIONS op = some f → op ≠ CleaningOperation.drop_duplicates →
      f df [] params = .ok df) ∧
    (∀ (df : DataFrame) (params : Params),
      drop_duplicates df [] params
        = .ok (filterRowsBy df (keepFirstMask [] (dfRows df)))) ∧
    (∀ df : DataFrame,
      (maskFilter (keepFirstMask [] (dfRows df)) (dfRows df)).Nodup ∧
      ∀ row ∈ dfRows df, row ∈ maskFilter (keepFirstMask [] (dfRows df)) (dfRows df)) := by
  refine ⟨?_, fun df params => rfl, fun df => ?_⟩
  · intro op f df params h hne
    cases op <;> simp only [OPERATIONS] at h
    case drop_duplicates => exact absurd rfl hne
    case validate => cases h
    case drop_nulls => cases h; rfl
    case fill_nulls => cases h; rfl
    case trim_whitespace => cases h; rfl
    case lowercase => cases h; rfl
    case uppercase => cases h; rfl
    case replace => cases h; rfl
    case cast_type => cases h; rfl
    case filter =>
      cases h
      rcases hv : params.value with _ | v <;> simp [filter_rows, hv]
    case remove_outliers => cases h; rfl
    case standardize => cases h; rfl
  · obtain ⟨h1, _, h3⟩ := keepFirst_spec (dfRows df) []
    exact ⟨h1, fun row hrow => h3 row hrow (by simp)⟩

theorem operations_empty_columns_witness :
    OPERATIONS CleaningOperation.trim_whitespace = some trim_whitespace ∧
    CleaningOperation.trim_whitespace ≠ CleaningOperation.drop_duplicates ∧
    trim_whitespace dfMixed [] {} = .ok dfMixed :=
  ⟨rfl, by decide,
    operations_empty_columns.1 CleaningOperation.trim_whitespace trim_whitespace dfMixed {}
      rfl (by decide)⟩

/-- C9: a selector built with an empty column list (pattern unset, all false) resolves to
every dataframe column, not to no columns, and an empty column list also passes the
construction-time mutual-exclusion check combined with a pattern or with all, because the
validator tests Python truthiness rather than presence. -/
theorem empty_columns_selector_truthiness :
    (∀ df : DataFrame, select_columns df ⟨some [], none, false⟩ = df.columns) ∧
    (validate_selector ⟨some [], none, false⟩ = .ok ⟨some [], none, false⟩) ∧
    (∀ p : String, validate_selector ⟨some [], some p, false⟩ = .ok ⟨some [], some p, false⟩) ∧
    (validate_selector ⟨some [], none, true⟩ = .ok ⟨some [], none, true⟩) := by
  refine ⟨fun df => rfl, rfl, fun p => ?_, rfl⟩
  simp [validate_selector, optListTruthy, optStrTruthy]

/-- C10: saving a dataframe with if_exists append to a connected store when the target table
does not exist first creates the table from the dataframe and then inserts the same rows
again, so the table holds every dataframe row twice. -/
theorem save_append_missing_table_duplicates (st : DuckDBStorage) (df : DataFrame)
    (tname : String) (tables : List (String × List (List Cell)))
    (hconn : st.connection = some tables) (habs : tableLookup tname tables = none) :
    isErr (save_dataframe st df tname "append") = false ∧
    storageLookup (save_dataframe st df tname "append") tname
      = some (dfRows df ++ dfRows df) ∧
    ∀ row : List Cell,
      (dfRows df ++ dfRows df).count row = 2 * (dfRows df).count row := by
  have hlookup : ∀ (ts : List (String × List (List Cell))),
      tableLookup tname ts = none →
      tableLookup tname
        ((ts ++ [(tname, dfRows df)]).map
          (fun p => if p.1 == tname then (p.1, p.2 ++ dfRows df) else p))
        = some (dfRows df ++ dfRows df) := by
    intro ts
    induction ts with
    | nil =>
      intro _
      simp only [List.nil_append, List.map_cons, List.map_nil]
      rw [if_pos (by simp)]
      simp [tableLookup]
    | cons t ts ih =>
      obtain ⟨k, b⟩ := t
      intro h
      simp only [tableLookup] at h
      by_cases hk : k = tname
      · rw [if_pos hk] at h; cases h
      · rw [if_neg hk] at h
        simp only [List.cons_append, List.map_cons]
        rw [if_neg (by simp [hk])]
        simp only [tableLookup]
        rw [if_neg hk]
        exact ih h
  have hres : save_dataframe st df tname "append"
      = .ok { db_path := st.db_path,
              connection := some ((tables ++ [(tname, dfRows df)]).map
                (fun p => if p.1 == tname then (p.1, p.2 ++ dfRows df) else p)) } := by
    simp only [save_dataframe, hconn]
    rw [if_neg (show ¬ ("append" = "replace") by decide),
      if_neg (show ¬ ("append" = "fail") by decide)]
    simp only [habs, Option.isSome_none, Bool.false_eq_true, if_false, ite_false, reduceIte]
  rw [hres]
  refine ⟨rfl, ?_, fun row => by rw [List.count_append, two_mul]⟩
  simp only [storageLookup, Option.getD_some]
  exact hlookup tables habs

theorem save_append_missing_table_duplicates_witness :
    stEmpty.connection = some [] ∧
    tableLookup "t" ([] : List (String × List (List Cell))) = none ∧
    (isErr (save_dataframe stEmpty dfMixed "t" "append") = false ∧
      storageLookup (save_dataframe stEmpty dfMixed "t" "append") "t"
        = some (dfRows dfMixed ++ dfRows dfMixed) ∧
      ∀ row : List Cell,
        (dfRows dfMixed ++ dfRows dfMixed).count row = 2 * (dfRows dfMixed).count row) :=
  ⟨rfl, rfl, save_append_missing_table_duplicates stEmpty dfMixed "t" [] rfl rfl⟩

/-- C2 (amended): a configuration with an enabled rule whose operation is absent from the
registry makes clean fail for every dataset — it never returns a result — and whenever input
validation and all rules sorted before that rule succeed, the failure is precisely the
unknown-operation error.  (In the pure embedding the input dataset is a value the run cannot
mutate, matching the source, which only rebinds its working dataframe.) -/
theorem clean_unknown_operation :
    (∀ (cfg : RuleConfig) (df : DataFrame) (vi vo : Bool) (r : CleaningRule),
      r ∈ cfg.rules → r.enabled = true → OPERATIONS r.operation = none →
      isErr (clean cfg df vi vo) = true) ∧
    (∀ (cfg : RuleConfig) (df df0 df1 : DataFrame) (vi vo : Bool)
      (l₁ l₂ : List CleaningRule) (r : CleaningRule),
      cfg.rules = l₁ ++ r :: l₂ → r.enabled = true → OPERATIONS r.operation = none →
      validateInputStep cfg df vi = .ok df0 → applyRules df0 l₁ = .ok df1 →
      clean cfg df vi vo = .error (.unknownOperation r.operation)) := by
  constructor
  · intro cfg df vi vo r hmem hen hop
    unfold clean
    cases validateInputStep cfg df vi with
    | error e => rfl
    | ok d =>
      have herr := applyRules_err_of_unknown r cfg.rules d hmem hen hop
      show isErr (match applyRules d cfg.rules with
        | .error e => (.error e : Except CleanError DataFrame)
        | .ok df2 => validateOutputStep cfg df2 vo) = true
      cases happ : applyRules d cfg.rules with
      | error e => rfl
      | ok d2 => rw [happ] at herr; cases herr
  · intro cfg df df0 df1 vi vo l₁ l₂ r hsplit hen hop hval happ
    unfold clean
    rw [hval]
    show (match applyRules df0 cfg.rules with
      | .error e => (.error e : Except CleanError DataFrame)
      | .ok df2 => validateOutputStep cfg df2 vo)
      = .error (.unknownOperation r.operation)
    rw [hsplit, applyRules_append, happ]
    simp only [applyRules, if_pos hen, applyRule, hop]

theorem clean_unknown_operation_witness :
    ruleUnknownOp ∈ cfgOnlyUnknown.rules ∧ ruleUnknownOp.enabled = true ∧
    OPERATIONS ruleUnknownOp.operation = none ∧
    validateInputStep cfgOnlyUnknown dfMixed false = .ok dfMixed ∧
    applyRules dfMixed [] = .ok dfMixed ∧
    isErr (clean cfgOnlyUnknown dfMixed false false) = true ∧
    clean cfgOnlyUnknown dfMixed false false
      = .error (.unknownOperation ruleUnknownOp.operation) :=
  ⟨by decide, rfl, rfl, rfl, rfl,
    clean_unknown_operation.1 cfgOnlyUnknown dfMixed false false ruleUnknownOp
      (by decide) rfl rfl,
    clean_unknown_operation.2 cfgOnlyUnknown dfMixed dfMixed dfMixed false false
      [] [] ruleUnknownOp (by decide) rfl rfl rfl rfl⟩

/-- C2 counterexample: the claim as stated — clean fails with the unknown-operation error for
every configuration containing an enabled registry-absent rule — is false when an earlier rule
fails first: here a strict cast failure surfaces before the registry-absent rule is reached,
so clean fails with the cast error, not the unknown-operation error. -/
theorem clean_unknown_operation_counterexample :
    (ruleUnknownOp ∈ cfgCastThenUnknown.rules ∧ ruleUnknownOp.enabled = true ∧
      OPERATIONS ruleUnknownOp.operation = none) ∧
    clean cfgCastThenUnknown dfDigits false false = .error (.castFailed "v") ∧
    ∀ op : CleaningOperation,
      (Except.error (CleanError.castFailed "v") : Except CleanError DataFrame)
        ≠ .error (.unknownOperation op) :=
  ⟨⟨by decide, rfl, rfl⟩, rfl, fun op h => by cases h⟩

/-- C3: a disabled rule never contributes: clean on a configuration built with the rule list
containing a disabled rule r equals clean on the configuration built with r removed, for every
dataset and validation flags. -/
theorem clean_disabled_rule_removed (nm : String) (ic oc : Option DataContract)
    (l₁ l₂ : List CleaningRule) (r : CleaningRule) (df : DataFrame) (vi vo : Bool)
    (hr : r.enabled = false) :
    clean (mkRuleConfig nm ic oc (l₁ ++ r :: l₂)) df vi vo
      = clean (mkRuleConfig nm ic oc (l₁ ++ l₂)) df vi vo := by
  have hrules : ∀ d : DataFrame,
      applyRules d (sort_rules_by_order (l₁ ++ r :: l₂))
        = applyRules d (sort_rules_by_order (l₁ ++ l₂)) := by
    intro d
    rw [← applyRules_filter_enabled (sort_rules_by_order (l₁ ++ r :: l₂)) d,
      ← applyRules_filter_enabled (sort_rules_by_order (l₁ ++ l₂)) d,
      filter_sort_rules, filter_sort_rules]
    have hfil : (l₁ ++ r :: l₂).filter (fun r => r.enabled)
        = (l₁ ++ l₂).filter (fun r => r.enabled) := by
      simp [List.filter_append, List.filter_cons, hr]
    rw [hfil]
  have hin : validateInputStep (mkRuleConfig nm ic oc (l₁ ++ r :: l₂)) df vi
      = validateInputStep (mkRuleConfig nm ic oc (l₁ ++ l₂)) df vi := rfl
  unfold clean
  rw [hin]
  cases validateInputStep (mkRuleConfig nm ic oc (l₁ ++ l₂)) df vi with
  | error e => rfl
  | ok d =>
    show (match applyRules d (sort_rules_by_order (l₁ ++ r :: l₂)) with
        | .error e => (.error e : Except CleanError DataFrame)
        | .ok df2 => validateOutputStep (mkRuleConfig nm ic oc (l₁ ++ r :: l₂)) df2 vo)
      = (match applyRules d (sort_rules_by_order (l₁ ++ l₂)) with
        | .error e => (.error e : Except CleanError DataFrame)
        | .ok df2 => validateOutputStep (mkRuleConfig nm ic oc (l₁ ++ l₂)) df2 vo)
    rw [hrules d]
    cases applyRules d (sort_rules_by_order (l₁ ++ l₂)) with
    | error e => rfl
    | ok d2 => rfl

theorem clean_disabled_rule_removed_witness :
    ruleDisabledTrim.enabled = false ∧
    clean (mkRuleConfig "w" none none ([] ++ ruleDisabledTrim :: [])) dfMixed true true
      = clean (mkRuleConfig "w" none none ([] ++ [])) dfMixed true true :=
  ⟨rfl, clean_disabled_rule_removed "w" none none [] [] ruleDisabledTrim dfMixed true true rfl⟩

/-! Lemmas about per-column casting. -/

theorem castColVals_nonstrict (dt : PDtype) (cname : String) :
    ∀ vs : List Cell, castColVals dt false cname vs
      = .ok (vs.map (fun cell => cell.bind (fun v => castCell v dt))) := by
  intro vs
  induction vs with
  | nil => rfl
  | cons cell vs ih =>
    cases cell with
    | none => simp [castColVals, ih, Except.map]
    | some v =>
      cases hc : castCell v dt with
      | none => simp [castColVals, hc, ih, Except.map]
      | some w => simp [castColVals, hc, ih, Except.map]

theorem castColVals_strict_err (dt : PDtype) (cname : String) (v : CellVal)
    (hv : castCell v dt = none) :
    ∀ vs : List Cell, some v ∈ vs →
    castColVals dt true cname vs = .error (.castFailed cname) := by
  intro vs
  induction vs with
  | nil => intro h; cases h
  | cons cell vs ih =>
    intro hmem
    rcases List.mem_cons.mp hmem with heq | hmem'
    · cases heq
      simp [castColVals, hv]
    · cases cell with
      | none => simp [castColVals, ih hmem', Except.map]
      | some w =>
        cases hc : castCell w dt with
        | none => simp [castColVals, hc]
        | some u => simp [castColVals, hc, ih hmem', Except.map]

theorem castColVals_strict_of_all_ok (dt : PDtype) (cname : String) :
    ∀ vs : List Cell, (∀ v : CellVal, some v ∈ vs → castCell v dt ≠ none) →
    castColVals dt true cname vs = castColVals dt false cname vs := by
  intro vs
  induction vs with
  | nil => intro _; rfl
  | cons cell vs ih =>
    intro h
    have ih' := ih (fun v hv => h v (List.mem_cons_of_mem _ hv))
    cases cell with
    | none => simp [castColVals, ih']
    | some v =>
      cases hc : castCell v dt with
      | none => exact absurd hc (h v (List.mem_cons_self _ _))
      | some w => simp [castColVals, hc, ih']

/-- C1 (amended): cast-type maps the canonical names int, float, str, bool, date, datetime
(not integer, string, boolean) to the engine-native types before casting, and for a resolved
column the strict parameter controls failure handling: with strict off every failing per-value
cast becomes a null, with strict on any failing value is an error, and with strict on and no
failing value the result agrees with the non-strict cast. -/
theorem cast_type_mapping_and_strict :
    (type_mapping "int" = some PDtype.int64 ∧ type_mapping "float" = some PDtype.float64 ∧
     type_mapping "str" = some PDtype.utf8 ∧ type_mapping "bool" = some PDtype.boolean ∧
     type_mapping "date" = some PDtype.date ∧
     type_mapping "datetime" = some PDtype.datetime) ∧
    (∀ (df : DataFrame) (c : String) (col : NamedCol) (nm : String) (dt : PDtype)
      (params : Params),
      type_mapping nm = some dt → params.dtype = some nm → params.strict = some false →
      getColumn df c = some col →
      cast_type df [c] params
        = .ok (mapCol df c (fun cc =>
            { cc with
              dtype := dt
              values := col.values.map (fun cell => cell.bind (fun v => castCell v dt)) }))) ∧
    (∀ (df : DataFrame) (c : String) (col : NamedCol) (nm : String) (dt : PDtype)
      (params : Params) (v : CellVal),
      type_mapping nm = some dt → params.dtype = some nm → params.strict = some true →
      getColumn df c = some col → some v ∈ col.values → castCell v dt = none →
      cast_type df [c] params = .error (.castFailed c)) ∧
    (∀ (df : DataFrame) (c : String) (col : NamedCol) (nm : String) (dt : PDtype)
      (params : Params),
      type_mapping nm = some dt → params.dtype = some nm → params.strict = some true →
      getColumn df c = some col →
      (∀ v : CellVal, some v ∈ col.values → castCell v dt ≠ none) →
      cast_type df [c] params = cast_type df [c] { params with strict := some false }) := by
  have hempty : ∀ nm dt, type_mapping nm = some dt → ¬ (nm = "") := by
    intro nm dt hmap h0
    rw [h0, show type_mapping "" = none from by decide] at hmap
    cases hmap
  refine ⟨⟨by decide, by decide, by decide, by decide, by decide, by decide⟩, ?_, ?_, ?_⟩
  · intro df c col nm dt params hmap hdtype hstrict hcol
    simp only [cast_type, List.isEmpty_cons, Bool.false_eq_true, if_false, hdtype,
      hempty nm dt hmap, ite_false, hmap, hstrict, Option.getD_some, castLoop, hcol,
      castColVals_nonstrict]
  · intro df c col nm dt params v hmap hdtype hstrict hcol hmem hv
    simp only [cast_type, List.isEmpty_cons, Bool.false_eq_true, if_false, hdtype,
      hempty nm dt hmap, ite_false, hmap, hstrict, Option.getD_some, castLoop, hcol,
      castColVals_strict_err dt c v hv col.values hmem]
  · intro df c col nm dt params hmap hdtype hstrict hcol hok
    simp only [cast_type, List.isEmpty_cons, Bool.false_eq_true, if_false, hdtype,
      hempty nm dt hmap, ite_false, hmap, hstrict, Option.getD_some, castLoop, hcol,
      castColVals_strict_of_all_ok dt c col.values hok]

theorem cast_type_mapping_and_strict_witness :
    type_mapping "int" = some PDtype.int64 ∧
    getColumn dfDigits "v" = some ⟨"v", .utf8, [some (.strV "1"), some (.strV "x"), none]⟩ ∧
    castCell (.strV "x") PDtype.int64 = none ∧
    cast_type dfDigits ["v"] { dtype := some "int", strict := some false }
      = .ok (mapCol dfDigits "v" (fun cc =>
          { cc with
            dtype := PDtype.int64
            values := ([some (.strV "1"), some (.strV "x"), none] : List Cell).map
              (fun cell => cell.bind (fun v => castCell v PDtype.int64)) })) ∧
    cast_type dfDigits ["v"] { dtype := some "int", strict := some true }
      = .error (.castFailed "v") :=
  ⟨rfl, rfl, rfl,
   cast_type_mapping_and_strict.2.1 dfDigits "v"
     ⟨"v", .utf8, [some (.strV "1"), some (.strV "x"), none]⟩ "int" PDtype.int64
     { dtype := some "int", strict := some false } rfl rfl rfl rfl,
   cast_type_mapping_and_strict.2.2.1 dfDigits "v"
     ⟨"v", .utf8, [some (.strV "1"), some (.strV "x"), none]⟩ "int" PDtype.int64
     { dtype := some "int", strict := some true } (.strV "x") rfl rfl rfl rfl
     (by decide) rfl⟩

/-- C1 counterexample: the claim's canonical names integer, string and boolean are not in the
source's type_mapping — the names the code maps are int, str and bool — so cast-type with
dtype integer does not cast to the engine-native integer type but falls through to the raw
string, which the engine rejects. -/
theorem cast_type_canonical_names_counterexample :
    type_mapping "integer" = none ∧ type_mapping "string" = none ∧
    type_mapping "boolean" = none ∧
    cast_type dfMixed ["n"] { dtype := some "integer" } = .error (.invalidDtype "integer") ∧
    type_mapping "int" = some PDtype.int64 :=
  ⟨by decide, by decide, by decide, rfl, by decide⟩

/-! Lemmas about type-based column skipping. -/

theorem strMapNamed_name (f : String → String) (c : NamedCol) :
    (strMapNamed f c).name = c.name := rfl

theorem standardizeCol_name (c : NamedCol) : (standardizeCol c).name = c.name := by
  simp only [standardizeCol]
  cases meanQ (nonNullQ c.values) with
  | none => cases stdQ (nonNullQ c.values) <;> rfl
  | some m =>
    cases stdQ (nonNullQ c.values) with
    | none => rfl
    | some s => by_cases hs : s = 0 <;> simp [hs]

theorem fillAggNamed_name (b : Bool) (c : NamedCol) : (fillAggNamed b c).name = c.name := by
  simp only [fillAggNamed]
  cases (if b then medianQ (nonNullQ c.values) else meanQ (nonNullQ c.values)) with
  | none => rfl
  | some m => cases c.dtype <;> rfl

theorem strOp_result_preserves (df : DataFrame) (cols : List String) (name : String)
    (ts : List (String × PDtype)) (hts : dtypesOf df cols = .ok ts)
    (hne : dtypeOf df name ≠ some PDtype.utf8) (f : String → String) :
    colVals (applyStrOp df (ts.filter (fun t => t.2 == PDtype.utf8)) f) name
      = colVals df name := by
  apply colVals_foldl_mapCol_of_not_mem (strMapNamed f) (fun c => rfl) name
  intro p hp hpname
  have hmem := List.mem_filter.mp hp
  have hdt : dtypeOf df p.1 = some p.2 := dtypesOf_ok_mem df cols ts hts p hmem.1
  have hutf : p.2 = PDtype.utf8 := by simpa using hmem.2
  rw [hpname, hutf] at hdt
  exact hne hdt

theorem numOp_result_preserves (df : DataFrame) (cols : List String) (name : String)
    (ts : List (String × PDtype)) (hts : dtypesOf df cols = .ok ts)
    (hnn : ∀ dt, dtypeOf df name = some dt → numericDtypes.contains dt = false) :
    colVals ((ts.filter (fun t => numericDtypes.contains t.2)).foldl
      (fun d t => mapCol d t.1 standardizeCol) df) name = colVals df name := by
  apply colVals_foldl_mapCol_of_not_mem standardizeCol standardizeCol_name name
  intro p hp hpname
  have hmem := List.mem_filter.mp hp
  have hdt : dtypeOf df p.1 = some p.2 := dtypesOf_ok_mem df cols ts hts p hmem.1
  rw [hpname] at hdt
  rw [hnn p.2 hdt] at hmem
  exact Bool.false_ne_true hmem.2

theorem removeOutliersLoop_skip (method : String) (threshold : ℚ) :
    ∀ (cols : List String) (df : DataFrame),
    (∀ c ∈ cols, ∃ col, getColumn df c = some col ∧
      numericDtypes.contains col.dtype = false) →
    removeOutliersLoop method threshold df cols = .ok df := by
  intro cols
  induction cols with
  | nil => intro df _; rfl
  | cons c cs ih =>
    intro df h
    obtain ⟨col, hcol, hnum⟩ := h c (List.mem_cons_self _ _)
    simp only [removeOutliersLoop, hcol, hnum, Bool.not_false, if_true]
    exact ih df (fun c' hc' => h c' (List.mem_cons_of_mem _ hc'))

theorem fillAggCols_err_of_utf8 (useMedian : Bool) (name : String) :
    ∀ (cols : List String) (df : DataFrame), name ∈ cols →
    dtypeOf df name = some PDtype.utf8 →
    isErr (fillAggCols useMedian df cols) = true := by
  intro cols
  induction cols with
  | nil => intro df h; cases h
  | cons c cs ih =>
    intro df hmem hdt
    cases hg : getColumn df c with
    | none => simp [fillAggCols, hg, isErr]
    | some col =>
      by_cases hc : col.dtype = PDtype.utf8
      · simp [fillAggCols, hg, hc, isErr]
      · have hne : name ≠ c := by
          intro h
          subst h
          unfold dtypeOf at hdt
          rw [hg] at hdt
          simp only [Option.map_some'] at hdt
          exact hc (Option.some.inj hdt)
        have hmem' : name ∈ cs := by
          rcases List.mem_cons.mp hmem with h | h
          · exact absurd h hne
          · exact h
        have hdt' : dtypeOf (mapCol df c (fillAggNamed useMedian)) name
            = some PDtype.utf8 := by
          rw [dtypeOf_mapCol_of_ne df c name _ hne (fillAggNamed_name useMedian)]
          exact hdt
        simp only [fillAggCols, hg, hc, if_neg, ite_false]
        exact ih _ hmem' hdt'

/-- C4 (amended): the permissive-skip policy holds for trim-whitespace, lowercase, uppercase
and replace in pattern mode (non-string resolved columns are untouched and cause no error)
and for standardize (non-numeric resolved columns untouched, no error); remove-outliers skips
non-numeric columns as filter bases, returning the dataset unchanged without error when no
resolved column is numeric; but fill-nulls with the mean or median strategy has no type check:
the aggregate is delegated to the engine for every resolved column, and a string column makes
the call fail instead of being skipped. -/
theorem permissive_skip_and_fill_nulls_gap :
    (∀ (df : DataFrame) (cols : List String) (params : Params) (name : String),
      (∀ c ∈ cols, c ∈ df.columns) → dtypeOf df name ≠ some PDtype.utf8 →
      isErr (trim_whitespace df cols params) = false ∧
      resultColVals (trim_whitespace df cols params) name = colVals df name) ∧
    (∀ (df : DataFrame) (cols : List String) (params : Params) (name : String),
      (∀ c ∈ cols, c ∈ df.columns) → dtypeOf df name ≠ some PDtype.utf8 →
      isErr (lowercase df cols params) = false ∧
      resultColVals (lowercase df cols params) name = colVals df name) ∧
    (∀ (df : DataFrame) (cols : List String) (params : Params) (name : String),
      (∀ c ∈ cols, c ∈ df.columns) → dtypeOf df name ≠ some PDtype.utf8 →
      isErr (uppercase df cols params) = false ∧
      resultColVals (uppercase df cols params) name = colVals df name) ∧
    (∀ (df : DataFrame) (cols : List String) (params : Params) (name pat : String),
      (∀ c ∈ cols, c ∈ df.columns) → dtypeOf df name ≠ some PDtype.utf8 →
      params.pattern = some pat → params.value = none →
      isErr (replace df cols params) = false ∧
      resultColVals (replace df cols params) name = colVals df name) ∧
    (∀ (df : DataFrame) (cols : List String) (params : Params) (name : String),
      (∀ c ∈ cols, c ∈ df.columns) →
      (∀ dt, dtypeOf df name = some dt → numericDtypes.contains dt = false) →
      isErr (standardize df cols params) = false ∧
      resultColVals (standardize df cols params) name = colVals df name) ∧
    (∀ (df : DataFrame) (cols : List String) (params : Params),
      (∀ c ∈ cols, c ∈ df.columns) →
      (∀ c ∈ cols, ∀ dt, dtypeOf df c = some dt → numericDtypes.contains dt = false) →
      remove_outliers df cols params = .ok df) ∧
    (∀ (df : DataFrame) (cols : List String) (params : Params) (name : String),
      name ∈ cols → dtypeOf df name = some PDtype.utf8 →
      (params.strategy = some "mean" ∨ params.strategy = some "median") →
      isErr (fill_nulls df cols params) = true) := by
  have hstr : ∀ (df : DataFrame) (cols : List String) (name : String),
      (∀ c ∈ cols, c ∈ df.columns) → dtypeOf df name ≠ some PDtype.utf8 →
      ∀ f : String → String,
      isErr (match dtypesOf df cols with
        | .error e => (.error e : Except CleanError DataFrame)
        | .ok ts => .ok (applyStrOp df (ts.filter (fun t => t.2 == PDtype.utf8)) f))
        = false ∧
      resultColVals (match dtypesOf df cols with
        | .error e => (.error e : Except CleanError DataFrame)
        | .ok ts => .ok (applyStrOp df (ts.filter (fun t => t.2 == PDtype.utf8)) f)) name
        = colVals df name := by
    intro df cols name hex hne f
    obtain ⟨ts, hts⟩ := dtypesOf_exists_of_subset df cols hex
    rw [hts]
    exact ⟨rfl, strOp_result_preserves df cols name ts hts hne f⟩
  refine ⟨?_, ?_, ?_, ?_, ?_, ?_, ?_⟩
  · intro df cols params name hex hne
    by_cases hempty : cols.isEmpty = true
    · simp [trim_whitespace, hempty, isErr, resultColVals]
    · simp only [trim_whitespace, if_neg hempty]
      exact hstr df cols name hex hne String.trim
  · intro df cols params name hex hne
    by_cases hempty : cols.isEmpty = true
    · simp [lowercase, hempty, isErr, resultColVals]
    · simp only [lowercase, if_neg hempty]
      exact hstr df cols name hex hne String.toLower
  · intro df cols params name hex hne
    by_cases hempty : cols.isEmpty = true
    · simp [uppercase, hempty, isErr, resultColVals]
    · simp only [uppercase, if_neg hempty]
      exact hstr df cols name hex hne String.toUpper
  · intro df cols params name pat hex hne hpat hval
    by_cases hempty : cols.isEmpty = true
    · simp [replace, hempty, isErr, resultColVals]
    · simp only [replace, if_neg hempty, hpat, hval]
      exact hstr df cols name hex hne
        (replaceAllStr pat (match params.replacement with
          | some (.cell (.strV s)) => s
          | _ => ""))
  · intro df cols params name hex hnn
    by_cases hempty : cols.isEmpty = true
    · simp [standardize, hempty, isErr, resultColVals]
    · obtain ⟨ts, hts⟩ := dtypesOf_exists_of_subset df cols hex
      simp only [standardize, if_neg hempty, hts]
      exact ⟨rfl, numOp_result_preserves df cols name ts hts hnn⟩
  · intro df cols params hex hnn
    by_cases hempty : cols.isEmpty = true
    · simp [remove_outliers, hempty]
    · simp only [remove_outliers, if_neg hempty]
      apply removeOutliersLoop_skip
      intro c hc
      obtain ⟨col, hcol⟩ := Option.isSome_iff_exists.mp
        (getColumn_isSome_of_mem df c (hex c hc))
      refine ⟨col, hcol, hnn c hc col.dtype ?_⟩
      unfold dtypeOf
      rw [hcol]
      rfl
  · intro df cols params name hmem hdt hstrat
    have hempty : cols.isEmpty = false := by
      cases cols
      · cases hmem
      · rfl
    rcases hstrat with h | h <;>
      simp only [fill_nulls, hempty, Bool.false_eq_true, if_false, h, Option.getD_some,
        ite_false, reduceIte] <;>
      exact fillAggCols_err_of_utf8 _ name cols df hmem hdt

theorem permissive_skip_and_fill_nulls_gap_witness :
    (∀ c ∈ ["s", "n"], c ∈ dfMixed.columns) ∧
    dtypeOf dfMixed "n" ≠ some PDtype.utf8 ∧
    (isErr (trim_whitespace dfMixed ["s", "n"] {}) = false ∧
      resultColVals (trim_whitespace dfMixed ["s", "n"] {}) "n" = colVals dfMixed "n") ∧
    (isErr (lowercase dfMixed ["s", "n"] {}) = false ∧
      resultColVals (lowercase dfMixed ["s", "n"] {}) "n" = colVals dfMixed "n") ∧
    (isErr (uppercase dfMixed ["s", "n"] {}) = false ∧
      resultColVals (uppercase dfMixed ["s", "n"] {}) "n" = colVals dfMixed "n") ∧
    (isErr (replace dfMixed ["s", "n"] { pattern := some "a" }) = false ∧
      resultColVals (replace dfMixed ["s", "n"] { pattern := some "a" }) "n"
        = colVals dfMixed "n") ∧
    (isErr (standardize dfMixed ["s", "n"] {}) = false ∧
      resultColVals (standardize dfMixed ["s", "n"] {}) "s" = colVals dfMixed "s") ∧
    remove_outliers dfMixed ["s"] {} = .ok dfMixed ∧
    isErr (fill_nulls dfMixed ["s"] { strategy := some "mean" }) = true := by
  have hs : dtypeOf dfMixed "s" = some PDtype.utf8 := rfl
  refine ⟨by decide, by decide, ?_, ?_, ?_, ?_, ?_, ?_, ?_⟩
  · exact permissive_skip_and_fill_nulls_gap.1 dfMixed ["s", "n"] {} "n"
      (by decide) (by decide)
  · exact permissive_skip_and_fill_nulls_gap.2.1 dfMixed ["s", "n"] {} "n"
      (by decide) (by decide)
  · exact permissive_skip_and_fill_nulls_gap.2.2.1 dfMixed ["s", "n"] {} "n"
      (by decide) (by decide)
  · exact permissive_skip_and_fill_nulls_gap.2.2.2.1 dfMixed ["s", "n"]
      { pattern := some "a" } "n" "a" (by decide) (by decide) rfl rfl
  · exact permissive_skip_and_fill_nulls_gap.2.2.2.2.1 dfMixed ["s", "n"] {} "s"
      (by decide) (fun dt h => by rw [hs] at h; cases h; decide)
  · exact permissive_skip_and_fill_nulls_gap.2.2.2.2.2.1 dfMixed ["s"] {}
      (by decide) (fun c hc dt h => by
        rcases List.mem_singleton.mp hc with rfl
        rw [hs] at h; cases h; decide)
  · exact permissive_skip_and_fill_nulls_gap.2.2.2.2.2.2 dfMixed ["s"]
      { strategy := some "mean" } "s" (by decide) rfl (Or.inl rfl)

/-- C4 counterexample: fill-nulls with strategy mean applied to a resolved list holding a
string column does not skip it — the source has no dtype guard — and the engine raises on the
string aggregate, refuting the no-error, values-unchanged claim for fill-nulls. -/
theorem permissive_skip_counterexample :
    dtypeOf dfMixed "s" = some PDtype.utf8 ∧
    fill_nulls dfMixed ["s"] { strategy := some "mean" }
      = .error (.engineError "aggregate not supported for string dtype") :=
  ⟨rfl, rfl⟩

/-! Prefix-anchoring of pattern matching. -/

theorem matchFromStart_iff (r : RegularExpression Char) (l : List Char) :
    matchFromStart r l = true ↔
      ∃ l₁ l₂ : List Char, l = l₁ ++ l₂ ∧ l₁ ∈ r.matches' := by
  have key : ∀ (l : List Char) (r : RegularExpression Char),
      matchFromStart r l = true ↔
      ∃ l₁ l₂ : List Char, l = l₁ ++ l₂ ∧ r.rmatch l₁ = true := by
    intro l
    induction l with
    | nil =>
      intro r
      constructor
      · intro h
        exact ⟨[], [], rfl, h⟩
      · rintro ⟨l₁, l₂, hl, hm⟩
        have h1 : l₁ = [] := by
          cases l₁ with
          | nil => rfl
          | cons a as => simp at hl
        subst h1
        exact hm
    | cons c cs ih =>
      intro r
      simp only [matchFromStart, Bool.or_eq_true]
      constructor
      · rintro (h | h)
        · exact ⟨[], c :: cs, rfl, h⟩
        · obtain ⟨l₁, l₂, hl, hm⟩ := (ih _).mp h
          exact ⟨c :: l₁, l₂, by rw [hl, List.cons_append], hm⟩
      · rintro ⟨l₁, l₂, hl, hm⟩
        cases l₁ with
        | nil =>
          left
          exact hm
        | cons d ds =>
          right
          rw [List.cons_append] at hl
          obtain ⟨hc, hcs⟩ := List.cons.inj hl
          subst hc
          exact (ih (r.deriv c)).mpr ⟨ds, l₂, hcs, hm⟩
  rw [key l r]
  constructor
  · rintro ⟨l₁, l₂, h1, h2⟩
    exact ⟨l₁, l₂, h1, (RegularExpression.rmatch_iff_matches' r l₁).mp h2⟩
  · rintro ⟨l₁, l₂, h1, h2⟩
    exact ⟨l₁, l₂, h1, (RegularExpression.rmatch_iff_matches' r l₁).mpr h2⟩

/-- C7: for a selector in pattern mode (pattern truthy, columns and all not truthy) whose
pattern compiles in the modelled regex subset, resolution returns exactly the dataframe
columns, in dataframe order, whose name the pattern matches anchored at the start: a name
matches precisely when some prefix of it lies in the pattern's language (re.match semantics,
prefix matching, not substring containment). -/
theorem select_columns_pattern_anchored (df : DataFrame) (sel : ColumnSelector)
    (p : String) (r : RegularExpression Char)
    (hall : sel.all = false) (hcols : optListTruthy sel.columns = false)
    (hpat : sel.pattern = some p) (hp : p.isEmpty = false)
    (hcomp : compilePattern p = some r) :
    select_columns df sel
      = df.columns.filter (fun col => matchFromStart r col.data) ∧
    ∀ s : String, matchFromStart r s.data = true ↔
      ∃ l₁ l₂ : List Char, s.data = l₁ ++ l₂ ∧ l₁ ∈ r.matches' := by
  constructor
  · simp only [select_columns, hall, Bool.false_eq_true, if_false, hcols, hpat,
      optStrTruthy, hp, Bool.not_false, ite_true, if_true, Option.getD_some, hcomp]
  · intro s
    exact matchFromStart_iff r s.data

theorem select_columns_pattern_anchored_witness :
    compilePattern "col_\\d+" = some compiledPattern ∧
    selPattern.all = false ∧ optListTruthy selPattern.columns = false ∧
    selPattern.pattern = some "col_\\d+" ∧ ("col_\\d+").isEmpty = false ∧
    (select_columns dfPatterned selPattern
        = dfPatterned.columns.filter (fun col => matchFromStart compiledPattern col.data) ∧
      ∀ s : String, matchFromStart compiledPattern s.data = true ↔
        ∃ l₁ l₂ : List Char, s.data = l₁ ++ l₂ ∧ l₁ ∈ compiledPattern.matches') ∧
    select_columns dfPatterned selPattern = ["col_1", "col_23"] ∧
    matchFromStart compiledPattern ("col_1").data = true ∧
    matchFromStart compiledPattern ("xcol_1").data = false :=
  ⟨rfl, rfl, rfl, rfl, rfl,
   select_columns_pattern_anchored dfPatterned selPattern "col_\\d+" compiledPattern
     rfl rfl rfl rfl rfl,
   by decide, by decide, by decide⟩

end CleaningEngine
